import Mathlib

/-!
Shallow embedding of the `experimental-minting-tool` repository
(`src/main.rs`, `src/types.rs`): a CLI tool that mints a DIP-721 NFT by
probing a canister's supported interfaces and then issuing a `mintDip721`
update call carrying an assembled metadata record.

External collaborators (the `ic-agent` transport, `clap` argument
enforcement, the `cid`, `uriparse`, `mime_guess` and `sha2` crates, the
file system and the interactive confirmation prompt) are modelled as
oracle inputs: a `World` of call replies and a structure `Ext` of the
pure external functions the code invokes. Everything the repository
itself computes is translated directly from the source.
-/

namespace MintTool

/-- Textual principal identifier (`candid::Principal`); the code only ever
parses it from text (clap) and re-displays it (`format!`), so its Display
form is the value. -/
abbrev Principal := String

/-- `types.rs` lines 33-40: interface identifiers reported by
`supportedInterfacesDip721`. -/
inductive InterfaceId where
  | Approval
  | TransactionHistory
  | Mint
  | Burn
  | TransferNotification
deriving DecidableEq, Repr

/-- `types.rs` lines 12-17: purpose tag of a metadata part. -/
inductive MetadataPurpose where
  | Preview
  | Rendered
deriving DecidableEq, Repr

/-- `types.rs` lines 19-29: the closed set of metadata value types.
Rust integer widths (u8/u16/u32/u64/u128) are carried as `Nat`; the
program only ever stores the constants 1-4 and decoded replies in them
and performs no arithmetic, so no wraparound can occur. -/
inductive MetadataVal where
  | TextContent (s : String)
  | BlobContent (b : List Nat)
  | NatContent (n : Nat)
  | Nat8Content (n : Nat)
  | Nat16Content (n : Nat)
  | Nat32Content (n : Nat)
  | Nat64Content (n : Nat)
deriving DecidableEq, Repr

/-- `types.rs` line 8: `key_val_data` is a
`std::collections::HashMap<&'static str, MetadataVal>`. A Rust `HashMap`
is an unordered map whose observable content is the key-to-value
function (iteration order is unspecified and randomized), so it is
embedded extensionally as that function. -/
abbrev KVMap := String → Option MetadataVal

/-- The empty hash map (`HashMap::new()`, `main.rs` line 71). -/
def kvEmpty : KVMap := fun _ => none

/-- `HashMap::insert`: maps the key to the new value, replacing any
previous binding. -/
def kvInsert (m : KVMap) (k : String) (v : MetadataVal) : KVMap :=
  fun k' => if k' = k then some v else m k'

/-- `types.rs` lines 42-46: the application-level denial decoded from the
mint reply. -/
inductive MintError where
  | Unauthorized
deriving DecidableEq, Repr

/-- `types.rs` lines 48-52: the success receipt decoded from the mint
reply (`id : u128`, `token_id : u64`). -/
structure MintReceipt where
  id : Nat
  token_id : Nat
deriving DecidableEq, Repr

/-- `types.rs` lines 5-10: the metadata part sent in the mint call. -/
structure MetadataPart where
  purpose : MetadataPurpose
  key_val_data : KVMap
  data : List Nat

/-- Rejections returned by the `ic-agent` call layer
(`ic_agent::AgentError`): a replica rejection carrying a numeric
`reject_code` and a message, or any other transport-level error. -/
inductive AgentError where
  | replicaError (reject_code : Nat) (reject_message : String)
  | other (msg : String)
deriving DecidableEq, Repr

/-- The error taxonomy of `rmain`. In the source every failure is an
`anyhow::Error`; the constructors record which source line produced it
and what context string (if any) was attached, preserving the original
lower-level error where the source does (`.context(...)` wraps, `?`
propagates verbatim). -/
inductive Error where
  /-- Clap rejects the argument combination: `Args::parse()` exits before
  the body of `rmain` runs (`main.rs` line 38). -/
  | usageError
  /-- `get_agent` failed (identity loading etc., `main.rs` lines 50-54). -/
  | agentFail (msg : String)
  /-- Probe rejected with reject code 3, wrapped with the context string
  (`main.rs` lines 60-63). -/
  | unsupportedService (orig : AgentError) (hint : String)
  /-- Any other call-layer rejection, propagated verbatim by `res?`
  (`main.rs` lines 65, 121). -/
  | protocolError (orig : AgentError)
  /-- A `Decode!` failure (`main.rs` lines 67, 123 first `?`). -/
  | decodeError (msg : String)
  /-- `bail!("canister {canister} does not support minting")`
  (`main.rs` line 69). -/
  | capabilityMissing (hint : String)
  /-- Mint call rejected with reject code 3, wrapped with the context
  string (`main.rs` lines 118-119). -/
  | unsupportedOperation (orig : AgentError) (hint : String)
  /-- `ipfs_location.parse::<Cid>()` failed (`main.rs` line 75). -/
  | malformedIdentifier (cidText : String)
  /-- `URI::try_from` failed (`main.rs` line 81). -/
  | invalidURI (uriText : String)
  /-- `hex::decode` failed (`main.rs` line 88). -/
  | malformedHash (hexText : String)
  /-- `fs::read` failed (`main.rs` line 92). -/
  | ioError (msg : String)
  /-- The decoded inner `Result<MintReceipt, MintError>` was an `Err`,
  propagated by the second `?` on `main.rs` line 123. -/
  | mintDenied (e : MintError)
deriving DecidableEq, Repr

/-- `main.rs` lines 142-180: the parsed command line. Fields mirror the
`Args` struct; `Option` mirrors `Option`, `PathBuf` and `Principal` are
carried as text. -/
structure Args where
  network : String
  canister : Principal
  owner : Principal
  ipfs_location : Option String
  asset_canister : Option Principal
  uri : Option String
  file : Option String
  sha2 : Option String
  sha2_auto : Bool
  mime_type : Option String
  yes : Bool
  fetch_root_key : Bool

/-- The clap derive constraints declared on `Args` (`main.rs` lines
142-180), which `Args::parse()` enforces before `rmain`'s body runs:
`ipfs_location`, `asset_canister` and `uri` pairwise `conflicts_with`
each other; `uri` `requires` the group `hash` = {`sha2`, `sha2_auto`};
`sha2_auto` `conflicts_with` `sha2` and `requires` `file`; `file` is
`required_unless_present_any(asset-canister, uri, ipfs-location)`;
`mime_type` is `required_unless_present(file)`. -/
def Args.parseOk (a : Args) : Bool :=
  !(a.ipfs_location.isSome && a.asset_canister.isSome) &&
  !(a.ipfs_location.isSome && a.uri.isSome) &&
  !(a.asset_canister.isSome && a.uri.isSome) &&
  (!a.uri.isSome || a.sha2.isSome || a.sha2_auto) &&
  !(a.sha2.isSome && a.sha2_auto) &&
  (!a.sha2_auto || a.file.isSome) &&
  (a.file.isSome || a.asset_canister.isSome || a.uri.isSome ||
    a.ipfs_location.isSome) &&
  (a.mime_type.isSome || a.file.isSome)

/-- Pure external functions the code calls, injected as parameters:
`cidToBytes` is `str::parse::<cid::Cid>` followed by `Cid::to_bytes`
(canonical binary form), `none` on a parse error; `uriOk` is whether
`uriparse::URI::try_from` succeeds; `mimeGuess` is
`mime_guess::from_path(..).first()` rendered to text; `sha256` is
`sha2::Sha256::digest` over a byte sequence. -/
structure Ext where
  cidToBytes : String → Option (List Nat)
  uriOk : String → Bool
  mimeGuess : String → Option String
  sha256 : List Nat → List Nat

/-- One hexadecimal digit, as decoded by the `hex` crate. -/
def hexDigit (c : Char) : Option Nat :=
  if '0' ≤ c ∧ c ≤ '9' then some (c.toNat - '0'.toNat)
  else if 'a' ≤ c ∧ c ≤ 'f' then some (c.toNat - 'a'.toNat + 10)
  else if 'A' ≤ c ∧ c ≤ 'F' then some (c.toNat - 'A'.toNat + 10)
  else none

/-- Decode a list of hex characters two at a time; fails on an odd count
or an invalid digit, as `hex::decode` does. -/
def hexPairs : List Char → Option (List Nat)
  | [] => some []
  | [_] => none
  | c1 :: c2 :: rest => do
      let hi ← hexDigit c1
      let lo ← hexDigit c2
      let r ← hexPairs rest
      pure ((hi * 16 + lo) :: r)

/-- `hex::decode` (`main.rs` line 88). -/
def hexDecode (s : String) : Option (List Nat) :=
  hexPairs s.data

/-- The environment of one invocation: the interactive confirmation
answer, the `get_agent` outcome, the decoded replies of the two remote
calls (outer layer: call-layer result; next: candid `Decode!`; for the
mint, inner: the application-level `Result<MintReceipt, MintError>`),
and the result of `fs::read`. -/
structure World where
  confirm : Bool
  agentErr : Option String
  probe : Except AgentError (Except String (List InterfaceId))
  fileRead : Except String (List Nat)
  mint : Except AgentError (Except String (Except MintError MintReceipt))

/-- The remote calls `rmain` can issue, in the order issued:
the read-only `supportedInterfacesDip721` query and the state-changing
`mintDip721` update call with its encoded argument
`(owner, [metadata part], data)`. -/
inductive Call where
  | probe
  | mint (owner : Principal) (part : MetadataPart) (data : List Nat)

/-- The reject-code test of `main.rs` lines 60 and 118:
`if let Err(AgentError::ReplicaError { reject_code: 3, .. })`. Only the
numeric code is inspected, never the message. -/
def isRejectCode3 : AgentError → Bool
  | .replicaError c _ => c == 3
  | .other _ => false

/-- Context string attached to a code-3 probe rejection
(`main.rs` lines 61-63). -/
def probeHint (canister : Principal) : String :=
  "canister " ++ canister ++ " does not appear to be a DIP-721 NFT canister"

/-- Context string attached to a code-3 mint rejection, and also the
`bail!` message when the interface list lacks `Mint`
(`main.rs` lines 69 and 119). -/
def mintHint (canister : Principal) : String :=
  "canister " ++ canister ++ " does not support minting"

/-- `main.rs` lines 73-86: turn the mutually exclusive location options
into the `locationType` / `location` entries of the metadata map. -/
def resolveLocation (ext : Ext) (a : Args) (m : KVMap) : Except Error KVMap :=
  match a.ipfs_location with
  | some cidText =>
      match ext.cidToBytes cidText with
      | none => .error (.malformedIdentifier cidText)
      | some bytes =>
          .ok (kvInsert (kvInsert m "locationType" (.Nat8Content 1))
                "location" (.BlobContent bytes))
  | none =>
      match a.asset_canister with
      | some p =>
          .ok (kvInsert (kvInsert m "locationType" (.Nat8Content 2))
                "location" (.TextContent p))
      | none =>
          match a.uri with
          | some u =>
              if ext.uriOk u then
                .ok (kvInsert (kvInsert m "locationType" (.Nat8Content 3))
                      "location" (.TextContent u))
              else .error (.invalidURI u)
          | none => .ok (kvInsert m "locationType" (.Nat8Content 4))

/-- `main.rs` lines 87-90: decode an explicitly supplied hex hash and
insert it under `contentHash`. -/
def sha2Stage (a : Args) (m : KVMap) : Except Error KVMap :=
  match a.sha2 with
  | some hexText =>
      match hexDecode hexText with
      | none => .error (.malformedHash hexText)
      | some h => .ok (kvInsert m "contentHash" (.BlobContent h))
  | none => .ok m

/-- `main.rs` lines 91-105: read the file if one was given, optionally
insert the automatically computed SHA-256 digest under `contentHash`
(overwriting any earlier binding), and resolve the provisional content
type (explicit override first, else guessed from the file path). With no
file, the data is `vec![]` and the provisional type is the explicit one. -/
def fileStage (ext : Ext) (w : World) (a : Args) (m : KVMap) :
    Except Error (KVMap × List Nat × Option String) :=
  match a.file with
  | some f =>
      match w.fileRead with
      | .error msg => .error (.ioError msg)
      | .ok data =>
          .ok
            (if a.sha2_auto then
                kvInsert m "contentHash" (.BlobContent (ext.sha256 data))
              else m,
              data,
              match a.mime_type with
              | some t => some t
              | none => ext.mimeGuess f)
  | none => .ok (m, [], a.mime_type)

/-- `main.rs` lines 71-107: assemble the metadata map and the content
bytes. Order of insertions follows the source: location entries, then
the explicit hex hash, then (inside the file branch) the automatically
computed digest, then `contentType` with its default. Returns the
finished map and the file data. -/
def buildMetadata (ext : Ext) (w : World) (a : Args) :
    Except Error (KVMap × List Nat) :=
  match resolveLocation ext a kvEmpty with
  | .error e => .error e
  | .ok m1 =>
      match sha2Stage a m1 with
      | .error e => .error e
      | .ok m2 =>
          match fileStage ext w a m2 with
          | .error e => .error e
          | .ok (m3, data, contentTypeOpt) =>
              .ok (kvInsert m3 "contentType"
                    (.TextContent (contentTypeOpt.getD "application/octet-stream")),
                  data)

/-- `main.rs` lines 37-126 (`rmain`), with `Args::parse()` modelled as
the `parseOk` gate. Returns the program result together with the list of
remote calls issued, in order. Stages follow the source: argument
parsing; the confirmation prompt when no file is given; agent creation;
the `supportedInterfacesDip721` query with its reject-code-3 special
case; the `Mint` membership check; metadata assembly; the `mintDip721`
update call with its reject-code-3 special case; decoding of the nested
result, whose inner `Err` is propagated by `?`. -/
def rmain (ext : Ext) (w : World) (a : Args) :
    Except Error Unit × List Call :=
  if !a.parseOk then (.error .usageError, [])
  else if a.file.isNone && !a.yes && !w.confirm then (.ok (), [])
  else match w.agentErr with
  | some msg => (.error (.agentFail msg), [])
  | none =>
    match w.probe with
    | .error e =>
        if isRejectCode3 e then
          (.error (.unsupportedService e (probeHint a.canister)), [.probe])
        else (.error (.protocolError e), [.probe])
    | .ok (.error msg) => (.error (.decodeError msg), [.probe])
    | .ok (.ok interfaces) =>
        if InterfaceId.Mint ∈ interfaces then
          match buildMetadata ext w a with
          | .error e => (.error e, [.probe])
          | .ok (md, data) =>
              let part : MetadataPart :=
                { purpose := .Rendered, key_val_data := md, data := data }
              match w.mint with
              | .error e =>
                  if isRejectCode3 e then
                    (.error (.unsupportedOperation e (mintHint a.canister)),
                      [.probe, .mint a.owner part data])
                  else
                    (.error (.protocolError e),
                      [.probe, .mint a.owner part data])
              | .ok (.error msg) =>
                  (.error (.decodeError msg), [.probe, .mint a.owner part data])
              | .ok (.ok (.error me)) =>
                  (.error (.mintDenied me), [.probe, .mint a.owner part data])
              | .ok (.ok (.ok _receipt)) =>
                  (.ok (), [.probe, .mint a.owner part data])
        else (.error (.capabilityMissing (mintHint a.canister)), [.probe])

/-! Concrete sample inputs used by the witness theorems below. -/

/-- A sample environment of external pure functions. -/
def ext0 : Ext :=
  { cidToBytes := fun _ => some [1, 113]
    uriOk := fun _ => true
    mimeGuess := fun _ => some "image/png"
    sha256 := fun _ => [9, 9] }

/-- A sample parsed command line: a file upload with an explicit MIME
type and no location source. -/
def args0 : Args :=
  { network := "local"
    canister := "rrkah-fqaaa-aaaaa-aaaaq-cai"
    owner := "2vxsx-fae"
    ipfs_location := none
    asset_canister := none
    uri := none
    file := some "a.png"
    sha2 := none
    sha2_auto := false
    mime_type := some "text/plain"
    yes := true
    fetch_root_key := false }

/-- A sample world in which everything succeeds: the probe reports the
`Mint` interface, the file reads as three bytes, and the mint call
returns a receipt. -/
def world0 : World :=
  { confirm := true
    agentErr := none
    probe := .ok (.ok [InterfaceId.Mint])
    fileRead := .ok [1, 2, 3]
    mint := .ok (.ok (.ok ⟨5, 7⟩)) }

/-! Helper lemmas characterizing the metadata stages. -/

/-- `resolveLocation` only writes the `locationType` and `location`
keys. -/
theorem resolveLocation_frame (ext : Ext) (a : Args) (m mr : KVMap)
    (h : resolveLocation ext a m = .ok mr) :
    ∀ k, k ≠ "locationType" → k ≠ "location" → mr k = m k := by
  intro k hk1 hk2
  unfold resolveLocation at h
  repeat' split at h
  all_goals
    first
    | exact Except.noConfusion h
    | (simp only [Except.ok.injEq] at h
       subst h
       simp [kvInsert, hk1, hk2])

/-- On success, `resolveLocation` sets `locationType` to one of the
codes 1-4, and sets `location` exactly when the code is not 4. -/
theorem resolveLocation_locType (ext : Ext) (a : Args) (m : KVMap)
    (mr : KVMap) (hm : m "location" = none)
    (h : resolveLocation ext a m = .ok mr) :
    ∃ c, mr "locationType" = some (.Nat8Content c) ∧
      (c = 1 ∨ c = 2 ∨ c = 3 ∨ c = 4) ∧
      (mr "location" ≠ none ↔ c ≠ 4) := by
  unfold resolveLocation at h
  repeat' split at h
  · exact Except.noConfusion h
  · simp only [Except.ok.injEq] at h
    subst h
    exact ⟨1, by simp [kvInsert]⟩
  · simp only [Except.ok.injEq] at h
    subst h
    exact ⟨2, by simp [kvInsert]⟩
  · simp only [Except.ok.injEq] at h
    subst h
    exact ⟨3, by simp [kvInsert]⟩
  · exact Except.noConfusion h
  · simp only [Except.ok.injEq] at h
    subst h
    exact ⟨4, by simp [kvInsert, hm]⟩

/-- `sha2Stage` only writes the `contentHash` key. -/
theorem sha2Stage_frame (a : Args) (m mr : KVMap)
    (h : sha2Stage a m = .ok mr) :
    ∀ k, k ≠ "contentHash" → mr k = m k := by
  intro k hk
  unfold sha2Stage at h
  repeat' split at h
  all_goals
    first
    | exact Except.noConfusion h
    | (simp only [Except.ok.injEq] at h
       subst h
       simp [kvInsert, hk])

/-- On success, `sha2Stage` leaves `contentHash` set exactly when an
explicit hash was supplied or it was already set. -/
theorem sha2Stage_hash (a : Args) (m mr : KVMap)
    (h : sha2Stage a m = .ok mr) :
    (mr "contentHash" ≠ none ↔ (a.sha2.isSome ∨ m "contentHash" ≠ none)) := by
  unfold sha2Stage at h
  repeat' split at h
  all_goals
    first
    | exact Except.noConfusion h
    | (simp only [Except.ok.injEq] at h
       subst h
       simp_all [kvInsert])

/-- `fileStage` only writes the `contentHash` key. -/
theorem fileStage_frame (ext : Ext) (w : World) (a : Args)
    (m mr : KVMap) (d : List Nat) (ct : Option String)
    (h : fileStage ext w a m = .ok (mr, d, ct)) :
    ∀ k, k ≠ "contentHash" → mr k = m k := by
  intro k hk
  unfold fileStage at h
  repeat' split at h
  all_goals
    first
    | exact Except.noConfusion h
    | (simp only [Except.ok.injEq, Prod.mk.injEq] at h
       obtain ⟨h1, -, -⟩ := h
       subst h1
       simp [kvInsert, hk])

/-- On success, `fileStage` leaves `contentHash` set exactly when the
automatic digest was requested for a supplied file or it was already
set. -/
theorem fileStage_hash (ext : Ext) (w : World) (a : Args)
    (m mr : KVMap) (d : List Nat) (ct : Option String)
    (h : fileStage ext w a m = .ok (mr, d, ct)) :
    (mr "contentHash" ≠ none ↔
      ((a.file.isSome ∧ a.sha2_auto = true) ∨ m "contentHash" ≠ none)) := by
  unfold fileStage at h
  repeat' split at h
  all_goals
    first
    | exact Except.noConfusion h
    | (simp only [Except.ok.injEq, Prod.mk.injEq] at h
       obtain ⟨h1, -, -⟩ := h
       subst h1
       simp_all [kvInsert])

/-- Anatomy of a successful `buildMetadata`: the three stages succeed in
order and the final map is the last stage's map with `contentType`
inserted. -/
theorem buildMetadata_ok (ext : Ext) (w : World) (a : Args)
    (md : KVMap) (data : List Nat)
    (h : buildMetadata ext w a = .ok (md, data)) :
    ∃ m1 m2 m3 ctOpt, resolveLocation ext a kvEmpty = .ok m1 ∧
      sha2Stage a m1 = .ok m2 ∧
      fileStage ext w a m2 = .ok (m3, data, ctOpt) ∧
      md = kvInsert m3 "contentType"
        (.TextContent (ctOpt.getD "application/octet-stream")) := by
  unfold buildMetadata at h
  split at h
  · exact absurd h (by simp)
  · rename_i m1 hr
    split at h
    · exact absurd h (by simp)
    · rename_i m2 hs
      split at h
      · exact absurd h (by simp)
      · rename_i m3 d ctOpt hf
        simp only [Except.ok.injEq, Prod.mk.injEq] at h
        obtain ⟨h1, h2⟩ := h
        subst h2
        exact ⟨m1, m2, m3, ctOpt, hr, hs, hf, h1.symm⟩

/-- On success, the provisional content type returned by `fileStage` is
the explicit override if given, otherwise the guess from the file path if
a file is given, otherwise nothing. -/
theorem fileStage_ct (ext : Ext) (w : World) (a : Args)
    (m mr : KVMap) (d : List Nat) (ct : Option String)
    (h : fileStage ext w a m = .ok (mr, d, ct)) :
    (∀ t, a.mime_type = some t → ct = some t) ∧
    (∀ f, a.file = some f → a.mime_type = none → ct = ext.mimeGuess f) ∧
    (a.file = none → ct = a.mime_type ∧ d = []) := by
  unfold fileStage at h
  repeat' split at h
  all_goals
    first
    | exact Except.noConfusion h
    | (simp only [Except.ok.injEq, Prod.mk.injEq] at h
       obtain ⟨-, h2, h3⟩ := h
       subst h2
       subst h3
       simp_all)

/-- When a file is supplied and automatic hashing requested, the map
returned by `fileStage` binds `contentHash` to the digest of the file
bytes, whatever was bound there before. -/
theorem fileStage_auto (ext : Ext) (w : World) (a : Args)
    (m mr : KVMap) (d : List Nat) (ct : Option String)
    (h : fileStage ext w a m = .ok (mr, d, ct))
    (hf : a.file.isSome) (hauto : a.sha2_auto = true) :
    mr "contentHash" = some (.BlobContent (ext.sha256 d)) := by
  unfold fileStage at h
  repeat' split at h
  all_goals
    first
    | exact Except.noConfusion h
    | (simp only [Except.ok.injEq, Prod.mk.injEq] at h
       obtain ⟨h1, h2, -⟩ := h
       subst h1
       subst h2
       simp_all [kvInsert])

/-- Reading a hash map at a key other than the one just inserted. -/
theorem kvInsert_ne (m : KVMap) (k : String) (v : MetadataVal) (k' : String)
    (h : k' ≠ k) : kvInsert m k v k' = m k' := by
  simp [kvInsert, h]

/-- Reading a hash map at the key just inserted. -/
theorem kvInsert_self (m : KVMap) (k : String) (v : MetadataVal) :
    kvInsert m k v k = some v := by
  simp [kvInsert]

/-- Unpacking the clap constraints: the consequences of a successful
parse used by the claims below. -/
theorem parseOk_spec (a : Args) (h : a.parseOk = true) :
    (a.uri.isSome → (a.sha2.isSome ∨ a.sha2_auto = true)) ∧
    (a.sha2_auto = true → a.file.isSome) ∧
    ¬(a.sha2.isSome ∧ a.sha2_auto = true) := by
  unfold Args.parseOk at h
  refine ⟨?_, ?_, ?_⟩ <;>
  · rcases hu : a.uri with _ | u <;> rcases hs : a.sha2 with _ | s <;>
      rcases hf : a.file with _ | f <;> rcases hauto : a.sha2_auto <;>
      simp_all

/-- Every `mintDip721` call in the trace was preceded by a probe that
succeeded with `Mint` in its interface list, carries the metadata part
assembled by `buildMetadata`, and is the final call of a two-call
trace. -/
theorem rmain_mint_mem (ext : Ext) (w : World) (a : Args)
    (o : Principal) (p : MetadataPart) (d : List Nat)
    (h : Call.mint o p d ∈ (rmain ext w a).2) :
    a.parseOk = true ∧
    (∃ l, w.probe = Except.ok (Except.ok l) ∧ InterfaceId.Mint ∈ l) ∧
    buildMetadata ext w a = Except.ok (p.key_val_data, d) ∧
    p.purpose = MetadataPurpose.Rendered ∧ p.data = d ∧ o = a.owner ∧
    (rmain ext w a).2 = [Call.probe, Call.mint o p d] := by
  unfold rmain at h ⊢
  repeat' split at h
  all_goals simp_all
  all_goals (split <;> simp_all)

/-- The calls issued by one invocation are at most the probe followed by
the mint call, in that order; no other remote interaction exists. -/
theorem rmain_trace_shape (ext : Ext) (w : World) (a : Args) :
    (rmain ext w a).2 = [] ∨ (rmain ext w a).2 = [Call.probe] ∨
    ∃ o p d, (rmain ext w a).2 = [Call.probe, Call.mint o p d] := by
  unfold rmain
  repeat' split
  all_goals
    first
    | exact Or.inl rfl
    | exact Or.inr (Or.inl rfl)
    | exact Or.inr (Or.inr ⟨_, _, _, rfl⟩)

/-! The claims. -/

/-- C4: for all inputs, at most one of the three location sources
(content-address, container-reference, external-URI) may be set; every
input that supplies two or more of them is rejected by argument parsing
(a construction-time validation error) before any remote call is made,
and the conflict is never resolved by picking one source. -/
theorem c4_conflicting_sources_rejected (ext : Ext) (w : World) (a : Args)
    (h : (a.ipfs_location.isSome ∧ a.asset_canister.isSome) ∨
         (a.ipfs_location.isSome ∧ a.uri.isSome) ∨
         (a.asset_canister.isSome ∧ a.uri.isSome)) :
    a.parseOk = false ∧ rmain ext w a = (Except.error Error.usageError, []) := by
  have hpf : a.parseOk = false := by
    unfold Args.parseOk
    rcases h with ⟨h1, h2⟩ | ⟨h1, h2⟩ | ⟨h1, h2⟩ <;> simp [h1, h2]
  refine ⟨hpf, ?_⟩
  unfold rmain
  simp [hpf]

/-- A command line supplying both an IPFS location and an asset
canister. -/
def args4 : Args :=
  { args0 with
    ipfs_location := some "QmT5NvUtoM5nWFfrQdVrFtvGfKFmG7AHE8P34isapyhCxX"
    asset_canister := some "ryjl3-tyaaa-aaaaa-aaaba-cai" }

/-- C4 witness: a concrete input with two location sources is rejected
with no remote call. -/
theorem c4_witness :
    args4.parseOk = false ∧
    rmain ext0 world0 args4 = (Except.error Error.usageError, []) :=
  c4_conflicting_sources_rejected ext0 world0 args4 (Or.inl ⟨rfl, rfl⟩)

/-- C5: an input with the external-URI source set and no hash (neither
explicit nor automatic) is rejected at parsing with no remote call; and
every mint call actually sent for a URI-located item carries a
`contentHash` entry in its metadata. -/
theorem c5_uri_requires_hash (ext : Ext) (w : World) (a : Args) :
    ((a.uri.isSome ∧ a.sha2 = none ∧ a.sha2_auto = false) →
      a.parseOk = false ∧
      rmain ext w a = (Except.error Error.usageError, [])) ∧
    (∀ o p d, a.uri.isSome → Call.mint o p d ∈ (rmain ext w a).2 →
      p.key_val_data "contentHash" ≠ none) := by
  constructor
  · rintro ⟨hu, hsn, hauto⟩
    have hpf : a.parseOk = false := by
      unfold Args.parseOk
      simp [hu, hsn, hauto]
    refine ⟨hpf, ?_⟩
    unfold rmain
    simp [hpf]
  · intro o p d hu hmem
    obtain ⟨hpk, -, hb, -, -, -, -⟩ := rmain_mint_mem ext w a o p d hmem
    obtain ⟨hreq, hfile, -⟩ := parseOk_spec a hpk
    obtain ⟨m1, m2, m3, ctOpt, hr, hsx, hfx, hmd⟩ :=
      buildMetadata_ok ext w a _ _ hb
    have hch : p.key_val_data "contentHash" = m3 "contentHash" := by
      rw [hmd, kvInsert_ne _ _ _ _ (by decide)]
    rw [hch]
    have h3 := fileStage_hash ext w a m2 m3 d ctOpt hfx
    have h2 := sha2Stage_hash a m1 m2 hsx
    rcases hreq hu with hsha | hauto
    · exact h3.mpr (Or.inr (h2.mpr (Or.inl hsha)))
    · exact h3.mpr (Or.inl ⟨hfile hauto, hauto⟩)

/-- A command line supplying a URI but no hash. -/
def args5 : Args :=
  { args0 with uri := some "https://example.com/a.png" }

/-- C5 witness: a concrete URI input without a hash is rejected with no
remote call. -/
theorem c5_witness :
    args5.parseOk = false ∧
    rmain ext0 world0 args5 = (Except.error Error.usageError, []) :=
  (c5_uri_requires_hash ext0 world0 args5).1 ⟨rfl, rfl, rfl⟩

/-- C6: every successfully assembled metadata record contains
`locationType` (one of the numeric codes) and `contentType`; it contains
`location` exactly when the code is not 4; and it contains `contentHash`
exactly when a hash was explicitly supplied or automatically computed
from a supplied file. -/
theorem c6_record_key_presence (ext : Ext) (w : World) (a : Args)
    (md : KVMap) (data : List Nat)
    (h : buildMetadata ext w a = .ok (md, data)) :
    (∃ c, md "locationType" = some (.Nat8Content c) ∧
      md "contentType" ≠ none ∧
      (md "location" ≠ none ↔ c ≠ 4)) ∧
    (md "contentHash" ≠ none ↔
      (a.sha2.isSome ∨ (a.file.isSome ∧ a.sha2_auto = true))) := by
  obtain ⟨m1, m2, m3, ctOpt, hr, hsx, hfx, hmd⟩ :=
    buildMetadata_ok ext w a md data h
  subst hmd
  have f3 := fileStage_frame ext w a m2 m3 data ctOpt hfx
  have f2 := sha2Stage_frame a m1 m2 hsx
  have f1 := resolveLocation_frame ext a kvEmpty m1 hr
  obtain ⟨c, hc1, -, hc3⟩ := resolveLocation_locType ext a kvEmpty m1 rfl hr
  constructor
  · refine ⟨c, ?_, ?_, ?_⟩
    · rw [kvInsert_ne _ _ _ _ (by decide), f3 _ (by decide),
        f2 _ (by decide), hc1]
    · rw [kvInsert_self]
      simp
    · rw [kvInsert_ne _ _ _ _ (by decide), f3 _ (by decide),
        f2 _ (by decide)]
      exact hc3
  · rw [kvInsert_ne _ _ _ _ (by decide),
      fileStage_hash ext w a m2 m3 data ctOpt hfx, sha2Stage_hash a m1 m2 hsx]
    have h1n : m1 "contentHash" = none := by
      rw [f1 _ (by decide) (by decide)]
      rfl
    simp only [h1n]
    simp
    tauto

/-- C6 witness: the concrete record of the sample input has the keys the
claim requires. -/
theorem c6_witness :
    ∃ md, buildMetadata ext0 world0 args0 = Except.ok (md, [1, 2, 3]) ∧
      ∃ c, md "locationType" = some (MetadataVal.Nat8Content c) ∧
        md "contentType" ≠ none ∧ (md "location" ≠ none ↔ c ≠ 4) :=
  ⟨_, rfl, (c6_record_key_presence ext0 world0 args0 _ _ rfl).1⟩

/-- C7: the location resolver maps content-address to code 1 with the
canonical binary form as location, container-reference to code 2 and URI
to code 3 with their text, and none to code 4 with no location; an
invalid content-address encoding fails with `malformedIdentifier`, a
syntactically invalid URI fails with `invalidURI`; and no source's
reachability is ever checked: the only remote calls an invocation can
issue are the probe and the mint call. -/
theorem c7_location_resolver (ext : Ext) (w : World) (a : Args) :
    (∀ s b, a.ipfs_location = some s → ext.cidToBytes s = some b →
      resolveLocation ext a kvEmpty =
        .ok (kvInsert (kvInsert kvEmpty "locationType" (.Nat8Content 1))
          "location" (.BlobContent b))) ∧
    (∀ s, a.ipfs_location = some s → ext.cidToBytes s = none →
      resolveLocation ext a kvEmpty = .error (.malformedIdentifier s)) ∧
    (∀ p, a.ipfs_location = none → a.asset_canister = some p →
      resolveLocation ext a kvEmpty =
        .ok (kvInsert (kvInsert kvEmpty "locationType" (.Nat8Content 2))
          "location" (.TextContent p))) ∧
    (∀ u, a.ipfs_location = none → a.asset_canister = none →
      a.uri = some u → ext.uriOk u = true →
      resolveLocation ext a kvEmpty =
        .ok (kvInsert (kvInsert kvEmpty "locationType" (.Nat8Content 3))
          "location" (.TextContent u))) ∧
    (∀ u, a.ipfs_location = none → a.asset_canister = none →
      a.uri = some u → ext.uriOk u = false →
      resolveLocation ext a kvEmpty = .error (.invalidURI u)) ∧
    (a.ipfs_location = none → a.asset_canister = none → a.uri = none →
      resolveLocation ext a kvEmpty =
        .ok (kvInsert kvEmpty "locationType" (.Nat8Content 4))) ∧
    ((rmain ext w a).2 = [] ∨ (rmain ext w a).2 = [Call.probe] ∨
      ∃ o p d, (rmain ext w a).2 = [Call.probe, Call.mint o p d]) := by
  refine ⟨?_, ?_, ?_, ?_, ?_, ?_, rmain_trace_shape ext w a⟩
  · intro s b h1 h2
    unfold resolveLocation
    simp [h1, h2]
  · intro s h1 h2
    unfold resolveLocation
    simp [h1, h2]
  · intro p h1 h2
    unfold resolveLocation
    simp [h1, h2]
  · intro u h1 h2 h3 h4
    unfold resolveLocation
    simp [h1, h2, h3, h4]
  · intro u h1 h2 h3 h4
    unfold resolveLocation
    simp [h1, h2, h3, h4]
  · intro h1 h2 h3
    unfold resolveLocation
    simp [h1, h2, h3]

/-- C7 witness: with no location source at all, the resolver yields the
code-4 record with no location entry. -/
theorem c7_witness :
    resolveLocation ext0 args0 kvEmpty =
      .ok (kvInsert kvEmpty "locationType" (MetadataVal.Nat8Content 4)) :=
  (c7_location_resolver ext0 world0 args0).2.2.2.2.2.1 rfl rfl rfl

/-- C8: the content type is the explicit override if given, otherwise
the guess from the filename if a file is given, otherwise the fixed
default; and with no location source, no file, no explicit type and no
hash, the assembled record is exactly
`(locationType := 4, contentType := "application/octet-stream")`. -/
theorem c8_content_type_resolution (ext : Ext) (w : World) (a : Args)
    (md : KVMap) (data : List Nat)
    (h : buildMetadata ext w a = .ok (md, data)) :
    (∀ t, a.mime_type = some t →
      md "contentType" = some (.TextContent t)) ∧
    (∀ f, a.mime_type = none → a.file = some f →
      md "contentType" = some (.TextContent
        ((ext.mimeGuess f).getD "application/octet-stream"))) ∧
    (a.mime_type = none → a.file = none →
      md "contentType" = some (.TextContent "application/octet-stream")) ∧
    (a.ipfs_location = none → a.asset_canister = none → a.uri = none →
      a.file = none → a.mime_type = none → a.sha2 = none →
      md = kvInsert (kvInsert kvEmpty "locationType" (.Nat8Content 4))
        "contentType" (.TextContent "application/octet-stream") ∧
      data = []) := by
  obtain ⟨m1, m2, m3, ctOpt, hr, hsx, hfx, hmd⟩ :=
    buildMetadata_ok ext w a md data h
  obtain ⟨ct1, ct2, ct3⟩ := fileStage_ct ext w a m2 m3 data ctOpt hfx
  refine ⟨?_, ?_, ?_, ?_⟩
  · intro t ht
    rw [hmd, kvInsert_self, ct1 t ht]
    rfl
  · intro f hmt hfl
    rw [hmd, kvInsert_self, ct2 f hfl hmt]
  · intro hmt hfl
    rw [hmd, kvInsert_self, (ct3 hfl).1, hmt]
    rfl
  · intro h1 h2 h3 h4 h5 h6
    have hb : buildMetadata ext w a =
        .ok (kvInsert (kvInsert kvEmpty "locationType" (.Nat8Content 4))
          "contentType" (.TextContent "application/octet-stream"), []) := by
      unfold buildMetadata resolveLocation sha2Stage fileStage
      simp [h1, h2, h3, h4, h5, h6]
    rw [h] at hb
    simp only [Except.ok.injEq, Prod.mk.injEq] at hb
    exact ⟨hb.1, hb.2⟩

/-- The scenario-A command line: no location source, no file, no
explicit type, no hash. -/
def argsA : Args :=
  { args0 with file := none, mime_type := none }

/-- C8 witness: the scenario-A record is exactly the two-key default
record. -/
theorem c8_witness :
    ∃ md, buildMetadata ext0 world0 argsA = Except.ok (md, []) ∧
      md = kvInsert (kvInsert kvEmpty "locationType"
          (MetadataVal.Nat8Content 4))
        "contentType" (MetadataVal.TextContent "application/octet-stream") :=
  ⟨_, rfl,
    ((c8_content_type_resolution ext0 world0 argsA _ _ rfl).2.2.2
      rfl rfl rfl rfl rfl rfl).1⟩

/-- The world in which the mint call succeeds at the call layer but the
decoded inner application result is the `Unauthorized` denial. -/
def w1 : World :=
  { world0 with mint := .ok (.ok (.error MintError.Unauthorized)) }

/-- C1 counterexample: the claim says an inner denial is returned as a
normal terminal value and not as a thrown/propagated error, but at this
concrete input `rmain` propagates the denial as an error (the second `?`
on `main.rs` line 123): the invocation's result is `Except.error`, not
`Except.ok`. -/
theorem c1_counterexample :
    (rmain ext0 w1 args0).1 =
      Except.error (Error.mintDenied MintError.Unauthorized) ∧
    (rmain ext0 w1 args0).1 ≠ Except.ok () := by
  refine ⟨rfl, fun hc => ?_⟩
  rw [show (rmain ext0 w1 args0).1 =
      Except.error (Error.mintDenied MintError.Unauthorized) from rfl] at hc
  exact Except.noConfusion hc

/-- C1 (amended): when the mint call completes at the call layer and the
decoded inner application result is a denial, `rmain` propagates the
denial as an error carrying the denial reason — an error distinct from
every call-layer `protocolError` or `unsupportedOperation`, so "call
failed" and "call succeeded but was denied" remain distinguishable — but
it is a propagated error, not a normal terminal return value. -/
theorem c1_denial_is_error (ext : Ext) (w : World) (a : Args)
    (e : MintError) (l : List InterfaceId) (md : KVMap) (data : List Nat)
    (hp : a.parseOk = true)
    (hg : (a.file.isNone && !a.yes && !w.confirm) = false)
    (ha : w.agentErr = none)
    (hprobe : w.probe = Except.ok (Except.ok l)) (hl : InterfaceId.Mint ∈ l)
    (hb : buildMetadata ext w a = Except.ok (md, data))
    (hm : w.mint = Except.ok (Except.ok (Except.error e))) :
    (rmain ext w a).1 = Except.error (Error.mintDenied e) ∧
    (∀ orig, Error.mintDenied e ≠ Error.protocolError orig) ∧
    (∀ orig hint, Error.mintDenied e ≠ Error.unsupportedOperation orig hint) := by
  refine ⟨?_, fun orig => by simp, fun orig hint => by simp⟩
  unfold rmain
  simp [hp, hg, ha, hprobe, hl, hb, hm]

/-- C1 witness: the amended theorem applied at the concrete denial
world. -/
theorem c1_witness :
    (rmain ext0 w1 args0).1 =
      Except.error (Error.mintDenied MintError.Unauthorized) :=
  (c1_denial_is_error ext0 w1 args0 MintError.Unauthorized
    [InterfaceId.Mint] _ _ rfl rfl rfl rfl (by simp) rfl rfl).1

/-- C2: the capability probe gates the mint call: if the probe's decoded
interface list lacks `Mint`, the invocation aborts with
`capabilityMissing` and no mint call is ever issued; and every mint call
that is issued was preceded by a probe that succeeded with `Mint`
present. -/
theorem c2_probe_gates_mint (ext : Ext) (w : World) (a : Args) :
    (∀ l, w.probe = Except.ok (Except.ok l) → InterfaceId.Mint ∉ l →
      (∀ o p d, Call.mint o p d ∉ (rmain ext w a).2) ∧
      (Call.probe ∈ (rmain ext w a).2 →
        (rmain ext w a).1 =
          Except.error (Error.capabilityMissing (mintHint a.canister)))) ∧
    (∀ o p d, Call.mint o p d ∈ (rmain ext w a).2 →
      ∃ l, w.probe = Except.ok (Except.ok l) ∧ InterfaceId.Mint ∈ l ∧
        (rmain ext w a).2 = [Call.probe, Call.mint o p d]) := by
  constructor
  · intro l hpl hml
    constructor
    · intro o p d hmem
      obtain ⟨-, ⟨lx, hplx, hmlx⟩, -⟩ := rmain_mint_mem ext w a o p d hmem
      rw [hpl] at hplx
      simp only [Except.ok.injEq] at hplx
      exact hml (hplx ▸ hmlx)
    · intro hprobe_mem
      unfold rmain at hprobe_mem ⊢
      repeat' split at hprobe_mem
      all_goals simp_all
      all_goals (split <;> simp_all)
  · intro o p d hmem
    obtain ⟨-, ⟨l, hpl, hml⟩, -, -, -, -, htr⟩ :=
      rmain_mint_mem ext w a o p d hmem
    exact ⟨l, hpl, hml, htr⟩

/-- The world whose probe reports an interface list without `Mint`. -/
def w2 : World :=
  { world0 with probe := .ok (.ok [InterfaceId.Approval]) }

/-- C2 witness: at a concrete world lacking the mint capability, the
invocation aborts with `capabilityMissing` and issues no mint call. -/
theorem c2_witness :
    (rmain ext0 w2 args0).1 =
      Except.error (Error.capabilityMissing (mintHint args0.canister)) :=
  ((c2_probe_gates_mint ext0 w2 args0).1 [InterfaceId.Approval] rfl
      (by decide)).2 (List.mem_singleton_self Call.probe)

/-- C3: a call-layer rejection with reject code 3 is reinterpreted: at
the probe it becomes `unsupportedService`, at the mint call
`unsupportedOperation`, in both cases preserving the original rejection
and adding a hint that depends only on the canister, not on the message;
any rejection the code-3 test does not match is propagated verbatim as
`protocolError`. -/
theorem c3_reject_code3_classified (ext : Ext) (w : World) (a : Args)
    (hp : a.parseOk = true)
    (hg : (a.file.isNone && !a.yes && !w.confirm) = false)
    (ha : w.agentErr = none) :
    (∀ m, w.probe = Except.error (AgentError.replicaError 3 m) →
      (rmain ext w a).1 = Except.error (Error.unsupportedService
        (AgentError.replicaError 3 m) (probeHint a.canister))) ∧
    (∀ e, w.probe = Except.error e → isRejectCode3 e = false →
      (rmain ext w a).1 = Except.error (Error.protocolError e)) ∧
    (∀ l md data m, w.probe = Except.ok (Except.ok l) →
      InterfaceId.Mint ∈ l → buildMetadata ext w a = Except.ok (md, data) →
      w.mint = Except.error (AgentError.replicaError 3 m) →
      (rmain ext w a).1 = Except.error (Error.unsupportedOperation
        (AgentError.replicaError 3 m) (mintHint a.canister))) ∧
    (∀ l md data e, w.probe = Except.ok (Except.ok l) →
      InterfaceId.Mint ∈ l → buildMetadata ext w a = Except.ok (md, data) →
      w.mint = Except.error e → isRejectCode3 e = false →
      (rmain ext w a).1 = Except.error (Error.protocolError e)) := by
  refine ⟨?_, ?_, ?_, ?_⟩
  · intro m hpe
    unfold rmain
    simp [hp, hg, ha, hpe, isRejectCode3]
  · intro e hpe hcode
    unfold rmain
    simp [hp, hg, ha, hpe, hcode]
  · intro l md data m hpl hml hb hme
    unfold rmain
    simp [hp, hg, ha, hpl, hml, hb, hme, isRejectCode3]
  · intro l md data e hpl hml hb hme hcode
    unfold rmain
    simp [hp, hg, ha, hpl, hml, hb, hme, hcode]

/-- The world whose probe is rejected with reject code 3 ("method not
implemented"). -/
def w3 : World :=
  { world0 with probe := .error (.replicaError 3 "method not implemented") }

/-- C3 witness: a concrete code-3 probe rejection is classified as
`unsupportedService` with the original rejection preserved. -/
theorem c3_witness :
    (rmain ext0 w3 args0).1 = Except.error (Error.unsupportedService
      (AgentError.replicaError 3 "method not implemented")
      (probeHint args0.canister)) :=
  (c3_reject_code3_classified ext0 w3 args0 rfl rfl rfl).1
    "method not implemented" rfl

/-- C9 counterexample: the claim says the metadata record is an ordered
mapping whose key order is fixed and preserved from assembly through
encoding; but the record is a Rust `HashMap` (embedded extensionally),
which carries no order: assembling the scenario-A record in the source's
insertion order and in the reversed order yields the very same record,
so no key order exists to be preserved. -/
theorem c9_counterexample :
    kvInsert (kvInsert kvEmpty "locationType" (MetadataVal.Nat8Content 4))
      "contentType" (MetadataVal.TextContent "application/octet-stream") =
    kvInsert (kvInsert kvEmpty "contentType"
        (MetadataVal.TextContent "application/octet-stream"))
      "locationType" (MetadataVal.Nat8Content 4) := by
  funext k
  by_cases h1 : k = "contentType" <;> by_cases h2 : k = "locationType" <;>
    simp_all [kvInsert, kvEmpty]

/-- C9 (amended): the metadata record sent in the mint call is an
unordered hash map; its keys are drawn from the fixed well-known set
`locationType`, `location`, `contentHash`, `contentType` — unknown keys
are never emitted — but the structure fixes no key order. -/
theorem c9_keys_closed (ext : Ext) (w : World) (a : Args)
    (md : KVMap) (data : List Nat)
    (h : buildMetadata ext w a = .ok (md, data)) :
    ∀ k, md k ≠ none →
      (k = "locationType" ∨ k = "location" ∨ k = "contentHash" ∨
        k = "contentType") := by
  intro k hk
  by_contra hnot
  push_neg at hnot
  obtain ⟨n1, n2, n3, n4⟩ := hnot
  obtain ⟨m1, m2, m3, ctOpt, hr, hsx, hfx, hmd⟩ :=
    buildMetadata_ok ext w a md data h
  apply hk
  rw [hmd, kvInsert_ne _ _ _ _ n4, fileStage_frame ext w a m2 m3 data ctOpt hfx k n3,
    sha2Stage_frame a m1 m2 hsx k n3,
    resolveLocation_frame ext a kvEmpty m1 hr k n1 n2]
  rfl

/-- C9 witness: the amended theorem applied to the concrete sample
record at the key `locationType`. -/
theorem c9_witness :
    ∃ md, buildMetadata ext0 world0 args0 = Except.ok (md, [1, 2, 3]) ∧
      ("locationType" = "locationType" ∨ "locationType" = "location" ∨
        "locationType" = "contentHash" ∨ "locationType" = "contentType") :=
  ⟨_, rfl, c9_keys_closed ext0 world0 args0 _ _ rfl "locationType"
    (by decide)⟩

/-- C10: when an explicit hex hash is supplied together with automatic
hashing of a supplied file, the assembled record's `contentHash` is the
digest computed over the file bytes: the later insertion overwrites the
earlier insertion of the decoded explicit hash, which is silently
discarded. -/
theorem c10_auto_hash_overwrites (ext : Ext) (w : World) (a : Args)
    (md : KVMap) (data : List Nat) (s f : String) (hx : List Nat)
    (hs2 : a.sha2 = some s) (hf2 : a.file = some f)
    (hauto : a.sha2_auto = true) (hhex : hexDecode s = some hx)
    (h : buildMetadata ext w a = .ok (md, data)) :
    md "contentHash" = some (MetadataVal.BlobContent (ext.sha256 data)) ∧
    (hx ≠ ext.sha256 data →
      md "contentHash" ≠ some (MetadataVal.BlobContent hx)) := by
  obtain ⟨m1, m2, m3, ctOpt, hr, hsx, hfx, hmd⟩ :=
    buildMetadata_ok ext w a md data h
  have h1 : md "contentHash" = m3 "contentHash" := by
    rw [hmd, kvInsert_ne _ _ _ _ (by decide)]
  have h2 := fileStage_auto ext w a m2 m3 data ctOpt hfx (by simp [hf2]) hauto
  refine ⟨by rw [h1, h2], fun hne hcontra => ?_⟩
  rw [h1, h2] at hcontra
  simp only [Option.some.injEq, MetadataVal.BlobContent.injEq] at hcontra
  exact hne hcontra.symm

/-- A command line supplying both an explicit hex hash and the automatic
hash flag for the file. This combination is declared conflicting by clap
(`sha2_auto` `conflicts_with` `sha2`), so `parseOk` rejects it; the
assembly code itself, fed such an `Args` record, exhibits the
overwrite. -/
def args10 : Args :=
  { args0 with sha2 := some "00ff", sha2_auto := true }

/-- C10 witness: at the concrete input the record's `contentHash` is the
digest of the file bytes, not the decoded explicit hash `[0, 255]`. -/
theorem c10_witness :
    ∃ md, buildMetadata ext0 world0 args10 = Except.ok (md, [1, 2, 3]) ∧
      md "contentHash" = some (MetadataVal.BlobContent [9, 9]) :=
  ⟨_, rfl, (c10_auto_hash_overwrites ext0 world0 args10 _ _ "00ff" "a.png"
    [0, 255] rfl rfl rfl rfl rfl).1⟩

end MintTool
